import Mathlib

/-!
Shallow embedding of the compound-interest engine of the Compound-React
repository (src/src/utils/calculatorUtils.ts and src/vanilla-clone/main.js).

The file src/src/utils/calculatorUtils.ts contains two copies of the module:
* a days-aware copy (lines 1-358): `CompoundingFrequency` without
  `continuously`, `CalculationParams` with a `timeUnit` field, solvers with a
  `timeUnit` parameter;
* a continuous-aware copy (lines 359-667): `CompoundingFrequency` with
  `continuously` (mapped to `Infinity` by `getFrequencyValue`), no `timeUnit`.

Numeric JavaScript arithmetic is modelled two ways:
* an idealized real-number model (`ℝ`, with `Real.rpow` for `Math.pow` and
  `Real.exp` for `Math.exp`), used for the formula-level claims, where the
  computations stay inside the finite reals;
* an explicit IEEE-special-value model `JsVal` (finite real, `Infinity`,
  `-Infinity`, `NaN`, following the ECMAScript specification of the
  arithmetic operators, `Math.pow` and `Math.log`), used for the claims whose
  content is the propagation of `Infinity`/`NaN`.  Signed zero is collapsed
  to `0`; at every place the claims touch, `-0` and `+0` behave identically
  (they are only added to `1`, multiplied by `±Infinity`, or used as an
  exponent, and ECMAScript gives the same result for both zeros there).
-/

/-! ## Days-aware copy (calculatorUtils.ts lines 1-358) -/

/-- The `CompoundingFrequency` union type of the days-aware copy
(no `continuously`). -/
inductive Frequency
  | annually
  | semiAnnually
  | quarterly
  | monthly
  | weekly
  | daily
  deriving DecidableEq, Repr

/-- The `timeUnit` field values of the days-aware copy. -/
inductive TimeUnit
  | years
  | days
  deriving DecidableEq, Repr

/-- Source: `getFrequencyValue` (days-aware copy, lines 57-67).  On the closed
TypeScript union every case is matched; the `default: return 1` branch is
reachable only for out-of-union strings, which `getFrequencyValueStr` below
models. -/
def getFrequencyValue : Frequency → ℕ
  | .annually => 1
  | .semiAnnually => 2
  | .quarterly => 4
  | .monthly => 12
  | .weekly => 52
  | .daily => 365

/-- Source: the same `switch` statement applied to an arbitrary runtime string
(as in `getFrequencyValue` of the days-aware copy and `getFrequencyNumber` of
vanilla-clone/main.js, lines 136-146, which have the identical body): the
`default` branch silently returns `1`. -/
def getFrequencyValueStr (frequency : String) : ℕ :=
  if frequency = "annually" then 1
  else if frequency = "semi-annually" then 2
  else if frequency = "quarterly" then 4
  else if frequency = "monthly" then 12
  else if frequency = "weekly" then 52
  else if frequency = "daily" then 365
  else 1

/-- Source: `CalculationParams` of the days-aware copy (lines 17-25).  The
`startDate` field only affects the `date` strings attached to breakdown rows;
the numeric model omits it and the date/heap behaviour is modelled separately
below (`runBreakdownDates`).  `targetAmount` is never read by any function
modelled here. -/
structure CalculationParams where
  principal : ℝ
  rate : ℝ
  time : ℝ
  timeUnit : TimeUnit
  frequency : Frequency

/-- Source: one row of `YearlyBreakdown` (lines 28-33), numeric fields.  The
optional `date` string is handled by the separate date-store model. -/
structure YearlyBreakdown where
  year : ℕ
  amount : ℝ
  interestEarned : ℝ

/-- Source: `CalculationResult` (lines 36-41). -/
structure CalculationResult where
  finalAmount : ℝ
  totalInterest : ℝ
  yearlyBreakdown : List YearlyBreakdown
  formula : String

/-- Source: `getFormula` (days-aware copy, lines 89-96). -/
def getFormula (solveFor : Option String) : String :=
  match solveFor with
  | some "time" => "t = ln(A/P) / (n * ln(1 + r/n))"
  | _ => "CI = P(1 + r/n)^(nt) - P"

/-- Source: `const timeInYears = timeUnit === 'days' ? time / 365 : time;`
(line 108, and identically in the solvers of the days-aware copy). -/
noncomputable def timeInYears (p : CalculationParams) : ℝ :=
  match p.timeUnit with
  | .days => p.time / 365
  | .years => p.time

/-- Source: the per-period amount of the breakdown loop (line 128):
`periodAmount = principal * Math.pow(1 + (rate / 100) / n, n * periodTime)`
with `periodTime = i / n` (line 125). -/
noncomputable def periodAmount1 (p : CalculationParams) (i : ℕ) : ℝ :=
  let n : ℝ := getFrequencyValue p.frequency
  p.principal * (1 + (p.rate / 100) / n) ^ (n * ((i : ℝ) / n))

/-- The breakdown loop
`for (let i = 1; i <= totalPeriods; i++) { ... interestEarned = periodAmount -
previousAmount; previousAmount = periodAmount; breakdown.push(...) }`
(lines 122-166 and 460-507), abstracted over the per-period amount function.
`fuel` is the number of remaining iterations, `i` the current period index and
`prev` the running `previousAmount`. -/
def breakdownGo (amount : ℕ → ℝ) : ℕ → ℕ → ℝ → List YearlyBreakdown
  | 0, _, _ => []
  | fuel + 1, i, prev =>
    let a := amount i
    ⟨i, a, a - prev⟩ :: breakdownGo amount fuel (i + 1) a

/-- Source: `calculateCompoundInterest` of the days-aware copy
(lines 103-174).  The loop `for (let i = 1; i <= totalPeriods; i++)` over the
(possibly fractional, possibly negative) real bound `totalPeriods = n *
timeInYears` executes exactly `⌊totalPeriods⌋₊` times (indices `1, 2, ...`
while `i ≤ totalPeriods`; `Nat.floor` is `0` on negative bounds). -/
noncomputable def calculateCompoundInterest (p : CalculationParams) : CalculationResult :=
  let n : ℝ := getFrequencyValue p.frequency
  let t := timeInYears p
  let finalAmount := p.principal * (1 + (p.rate / 100) / n) ^ (n * t)
  { finalAmount := finalAmount
    totalInterest := finalAmount - p.principal
    yearlyBreakdown := breakdownGo (periodAmount1 p) ⌊n * t⌋₊ 1 p.principal
    formula := getFormula none }

/-- Source: `calculateMissingPrincipal` of the days-aware copy
(lines 309-319). -/
noncomputable def calculateMissingPrincipal (finalAmount rate time : ℝ)
    (frequency : Frequency) (timeUnit : TimeUnit) : ℝ :=
  let n : ℝ := getFrequencyValue frequency
  let t : ℝ := match timeUnit with
    | .days => time / 365
    | .years => time
  finalAmount / (1 + (rate / 100) / n) ^ (n * t)

/-! ## Continuous-aware copy (calculatorUtils.ts lines 359-667) -/

/-- The `CompoundingFrequency` union type of the continuous-aware copy
(lines 361-368), which includes `continuously`. -/
inductive CFrequency
  | annually
  | semiAnnually
  | quarterly
  | monthly
  | weekly
  | daily
  | continuously
  deriving DecidableEq, Repr

/-- Source: `CalculationParams` of the continuous-aware copy (lines 370-376):
no `timeUnit` field; `time` is always in years.  `startDate` is again handled
by the separate date-store model. -/
structure CalculationParams2 where
  principal : ℝ
  rate : ℝ
  time : ℝ
  frequency : CFrequency

/-- The periods-per-year constants of `getFrequencyValue` of the
continuous-aware copy (lines 398-409) for the six discrete frequencies.  The
source returns `Infinity` for `continuously`; that value is represented as
`JsVal.inf` by `jsGetFrequencyValue2` below and is never consulted by the
real-number model (every use of `n` in `calculateCompoundInterest` of this
copy sits under a `frequency !== 'continuously'` guard), so the `0` returned
here for `continuously` is dead. -/
def freqPeriods : CFrequency → ℕ
  | .annually => 1
  | .semiAnnually => 2
  | .quarterly => 4
  | .monthly => 12
  | .weekly => 52
  | .daily => 365
  | .continuously => 0

/-- Source: `getFormula` of the continuous-aware copy (lines 431-436); the
multiplication sign of the continuous formula string is transcribed as `*`. -/
def getFormula2 (frequency : CFrequency) : String :=
  if frequency = .continuously then "A = P * e^(rt)" else "A = P(1 + r/n)^(nt)"

/-- Source: the per-period amount of the breakdown loop of the
continuous-aware copy (lines 463-468): `periodTime = i` for `continuously`
(and `Math.exp` is used), `periodTime = i / n` otherwise. -/
noncomputable def periodAmount2 (p : CalculationParams2) (i : ℕ) : ℝ :=
  if p.frequency = .continuously then
    p.principal * Real.exp ((p.rate / 100) * (i : ℝ))
  else
    let n : ℝ := freqPeriods p.frequency
    p.principal * (1 + (p.rate / 100) / n) ^ (n * ((i : ℝ) / n))

/-- Source: `calculateCompoundInterest` of the continuous-aware copy
(lines 439-515): continuous branch `principal * Math.exp((rate/100) * time)`,
discrete branch `principal * Math.pow(1 + (rate/100)/n, n * time)`;
`totalPeriods` is `time` for `continuously` and `n * time` otherwise, and the
`for (let i = 1; i <= totalPeriods; i++)` loop runs `⌊totalPeriods⌋₊`
times. -/
noncomputable def calculateCompoundInterest2 (p : CalculationParams2) : CalculationResult :=
  let finalAmount :=
    if p.frequency = .continuously then
      p.principal * Real.exp ((p.rate / 100) * p.time)
    else
      let n : ℝ := freqPeriods p.frequency
      p.principal * (1 + (p.rate / 100) / n) ^ (n * p.time)
  let totalPeriods : ℝ :=
    if p.frequency = .continuously then p.time else (freqPeriods p.frequency : ℝ) * p.time
  { finalAmount := finalAmount
    totalInterest := finalAmount - p.principal
    yearlyBreakdown := breakdownGo (periodAmount2 p) ⌊totalPeriods⌋₊ 1 p.principal
    formula := getFormula2 p.frequency }

/-! ## ECMAScript double model with special values -/

/-- An ECMAScript number, idealized: a finite real (signed zero collapsed to
`0`), `+Infinity`, `-Infinity`, or `NaN`. -/
inductive JsVal
  | fin (x : ℝ)
  | inf
  | ninf
  | nan

/-- ECMAScript unary negation on the model. -/
def jneg : JsVal → JsVal
  | .fin x => .fin (-x)
  | .inf => .ninf
  | .ninf => .inf
  | .nan => .nan

/-- ECMAScript addition: `NaN` propagates; opposite infinities give `NaN`; an
infinity absorbs finite operands. -/
noncomputable def jadd : JsVal → JsVal → JsVal
  | .nan, _ => .nan
  | _, .nan => .nan
  | .inf, .ninf => .nan
  | .ninf, .inf => .nan
  | .inf, _ => .inf
  | _, .inf => .inf
  | .ninf, _ => .ninf
  | _, .ninf => .ninf
  | .fin x, .fin y => .fin (x + y)

/-- ECMAScript subtraction is addition of the negation. -/
noncomputable def jsub (a b : JsVal) : JsVal := jadd a (jneg b)

/-- ECMAScript multiplication: `NaN` propagates; `±Infinity * 0 = NaN`;
otherwise an infinity takes the sign of the other operand. -/
noncomputable def jmul : JsVal → JsVal → JsVal
  | .nan, _ => .nan
  | _, .nan => .nan
  | .fin x, .fin y => .fin (x * y)
  | .inf, .inf => .inf
  | .inf, .ninf => .ninf
  | .ninf, .inf => .ninf
  | .ninf, .ninf => .inf
  | .inf, .fin y => if 0 < y then .inf else if y < 0 then .ninf else .nan
  | .fin x, .inf => if 0 < x then .inf else if x < 0 then .ninf else .nan
  | .ninf, .fin y => if 0 < y then .ninf else if y < 0 then .inf else .nan
  | .fin x, .ninf => if 0 < x then .ninf else if x < 0 then .inf else .nan

/-- ECMAScript division: `NaN` propagates; `±Infinity / ±Infinity = NaN`;
`x / ±Infinity = 0` (a signed zero in JavaScript, collapsed here);
`x / 0` is `±Infinity` by the sign of `x` and `0 / 0 = NaN` (the divisor
zero is `+0` here; `-0` never reaches a divisor position in the modelled
code). -/
noncomputable def jdiv : JsVal → JsVal → JsVal
  | .nan, _ => .nan
  | _, .nan => .nan
  | .inf, .inf => .nan
  | .inf, .ninf => .nan
  | .ninf, .inf => .nan
  | .ninf, .ninf => .nan
  | .inf, .fin y => if 0 ≤ y then .inf else .ninf
  | .ninf, .fin y => if 0 ≤ y then .ninf else .inf
  | .fin _, .inf => .fin 0
  | .fin _, .ninf => .fin 0
  | .fin x, .fin y =>
    if y = 0 then (if 0 < x then .inf else if x < 0 then .ninf else .nan)
    else .fin (x / y)

open Classical in
/-- ECMAScript `Math.pow` (Number::exponentiate): checked in specification
order — a `NaN` exponent gives `NaN`; a zero exponent gives `1` for every
base (including `NaN`); then a `NaN` base gives `NaN`; infinite bases and
exponents follow the magnitude rules (`|base| = 1` with an infinite exponent
is `NaN`); a negative finite base with a non-integer finite exponent is
`NaN`, and with an integer exponent the real power (for which `Real.rpow`
agrees with the exact signed power, `Real.rpow_intCast`). -/
noncomputable def jpow : JsVal → JsVal → JsVal
  | _, .nan => .nan
  | b, .fin y =>
    if y = 0 then .fin 1 else
    match b with
    | .nan => .nan
    | .inf => if 0 < y then .inf else .fin 0
    | .ninf =>
      if 0 < y then (if ∃ k : ℤ, 2 * (k : ℝ) + 1 = y then .ninf else .inf)
      else .fin 0
    | .fin x =>
      if 0 < x then .fin (x ^ y)
      else if x = 0 then (if 0 < y then .fin 0 else .inf)
      else if ∃ k : ℤ, (k : ℝ) = y then .fin (x ^ y) else .nan
  | b, .inf =>
    match b with
    | .nan => .nan
    | .inf => .inf
    | .ninf => .inf
    | .fin x => if 1 < |x| then .inf else if |x| = 1 then .nan else .fin 0
  | b, .ninf =>
    match b with
    | .nan => .nan
    | .inf => .fin 0
    | .ninf => .fin 0
    | .fin x => if 1 < |x| then .fin 0 else if |x| = 1 then .nan else .inf

/-- ECMAScript `Math.log`: `NaN` for `NaN`, negative arguments and
`-Infinity`; `-Infinity` at zero; `+Infinity` at `+Infinity`; the real
logarithm on positive finite arguments. -/
noncomputable def jlog : JsVal → JsVal
  | .nan => .nan
  | .inf => .inf
  | .ninf => .nan
  | .fin x => if 0 < x then .fin (Real.log x) else if x = 0 then .ninf else .nan

/-- Source: `getFrequencyValue` of the continuous-aware copy (lines 398-409)
on the ECMAScript value model: `'continuously'` maps to `Infinity`. -/
noncomputable def jsGetFrequencyValue2 : CFrequency → JsVal
  | .continuously => .inf
  | f => .fin (freqPeriods f)

/-- Source: `calculateMissingPrincipal` of the continuous-aware copy
(lines 626-634): `finalAmount / Math.pow(1 + (rate / 100) / n, n * time)`. -/
noncomputable def jsCalculateMissingPrincipal2 (finalAmount rate time : JsVal)
    (frequency : CFrequency) : JsVal :=
  let n := jsGetFrequencyValue2 frequency
  jdiv finalAmount (jpow (jadd (.fin 1) (jdiv (jdiv rate (.fin 100)) n)) (jmul n time))

/-- Source: `calculateMissingFinalAmount` of the continuous-aware copy
(lines 637-645): `principal * Math.pow(1 + (rate / 100) / n, n * time)`. -/
noncomputable def jsCalculateMissingFinalAmount2 (principal rate time : JsVal)
    (frequency : CFrequency) : JsVal :=
  let n := jsGetFrequencyValue2 frequency
  jmul principal (jpow (jadd (.fin 1) (jdiv (jdiv rate (.fin 100)) n)) (jmul n time))

/-- Source: `calculateMissingRate` of the continuous-aware copy
(lines 648-656):
`n * (Math.pow(finalAmount / principal, 1 / (n * time)) - 1) * 100`,
left-associated. -/
noncomputable def jsCalculateMissingRate2 (principal finalAmount time : JsVal)
    (frequency : CFrequency) : JsVal :=
  let n := jsGetFrequencyValue2 frequency
  jmul (jmul n (jsub (jpow (jdiv finalAmount principal) (jdiv (.fin 1) (jmul n time)))
    (.fin 1))) (.fin 100)

/-- Source: `calculateMissingTime` of the continuous-aware copy
(lines 659-667):
`Math.log(finalAmount / principal) / (n * Math.log(1 + (rate / 100) / n))`. -/
noncomputable def jsCalculateMissingTime2 (principal finalAmount rate : JsVal)
    (frequency : CFrequency) : JsVal :=
  let n := jsGetFrequencyValue2 frequency
  jdiv (jlog (jdiv finalAmount principal))
    (jmul n (jlog (jadd (.fin 1) (jdiv (jdiv rate (.fin 100)) n))))

/-- Source: `timeUnit === 'days' ? time / 365 : time` on the ECMAScript value
model (days-aware copy solvers). -/
noncomputable def jsTimeInYears (time : JsVal) : TimeUnit → JsVal
  | .days => jdiv time (.fin 365)
  | .years => time

/-- Source: `calculateMissingRate` of the days-aware copy (lines 335-345):
`(Math.pow(finalAmount / principal, 1 / (n * timeInYears)) - 1) * n * 100`,
left-associated. -/
noncomputable def jsCalculateMissingRate (principal finalAmount time : JsVal)
    (frequency : Frequency) (timeUnit : TimeUnit) : JsVal :=
  let n : JsVal := .fin (getFrequencyValue frequency)
  let t := jsTimeInYears time timeUnit
  jmul (jmul (jsub (jpow (jdiv finalAmount principal) (jdiv (.fin 1) (jmul n t)))
    (.fin 1)) n) (.fin 100)

/-- Source: `calculateMissingTime` of the days-aware copy (lines 348-358):
`Math.log(finalAmount / principal) / (n * Math.log(1 + (rate / 100) / n))`,
multiplied by 365 when days are requested. -/
noncomputable def jsCalculateMissingTime (principal finalAmount rate : JsVal)
    (frequency : Frequency) (timeUnit : TimeUnit) : JsVal :=
  let n : JsVal := .fin (getFrequencyValue frequency)
  let tYears := jdiv (jlog (jdiv finalAmount principal))
    (jmul n (jlog (jadd (.fin 1) (jdiv (jdiv rate (.fin 100)) n))))
  match timeUnit with
  | .days => jmul tYears (.fin 365)
  | .years => tYears

/-! ## Heap model of the breakdown date stepping

JavaScript `Date` objects are the only mutable values `calculateCompoundInterest`
touches (numbers, strings and enum strings are immutable, and the `params`
fields are only destructured/read).  The mutable `Date` cells are modelled as a
store (`List ℤ` of abstract date values, indexed by allocation order); the date
arithmetic (`setFullYear`/`setMonth`/`setDate` advancing by one compounding
interval) is abstracted as an arbitrary `step` function, since the aliasing
behaviour is independent of it. -/

/-- `new Date(v)`: allocate a fresh cell holding a copy of the value; returns
the new store and the reference to the fresh cell. -/
def newDate (store : List ℤ) (v : ℤ) : List ℤ × ℕ := (store ++ [v], store.length)

/-- Read the date value held by a cell. -/
def readCell (store : List ℤ) (r : ℕ) : ℤ := store.getD r 0

/-- A mutating setter (`setFullYear`/`setMonth`/`setDate`) writing a cell in
place. -/
def setCell (store : List ℤ) (r : ℕ) (v : ℤ) : List ℤ := store.set r v

/-- Source, lines 134-158 and 473-499: each loop iteration executes
`let date = new Date(currentDate)` (a fresh cell copying the current value),
mutates that fresh cell via a setter, and rebinds the local `currentDate` to
it.  `cur` is the reference held by `currentDate`. -/
def dateLoop (step : ℤ → ℤ) : ℕ → List ℤ → ℕ → List ℤ × ℕ
  | 0, store, cur => (store, cur)
  | k + 1, store, cur =>
    let alloc := newDate store (readCell store cur)
    let store₂ := setCell alloc.1 alloc.2 (step (readCell alloc.1 alloc.2))
    dateLoop step k store₂ alloc.2

/-- Source, line 118 / 457: `let currentDate = startDate ? new Date(startDate)
: undefined` — the date of `params.startDate` is copied into a fresh cell
before the loop — followed by the breakdown loop's date stepping. -/
def runBreakdownDates (step : ℤ → ℤ) (store : List ℤ) (startRef : ℕ)
    (count : ℕ) : List ℤ × ℕ :=
  let alloc := newDate store (readCell store startRef)
  dateLoop step count alloc.1 alloc.2

/-! ## Helper lemmas -/

/-- The breakdown loop produces one row per remaining iteration. -/
theorem breakdownGo_length (amount : ℕ → ℝ) (fuel : ℕ) :
    ∀ (start : ℕ) (prev : ℝ), (breakdownGo amount fuel start prev).length = fuel := by
  induction fuel with
  | zero => intro start prev; rfl
  | succ f ih => intro start prev; simp [breakdownGo, ih]

/-- Characterization of the rows of the breakdown loop, started at index
`s + 1` with the running previous amount equal to `amount s`. -/
theorem breakdownGo_get (amount : ℕ → ℝ) (fuel : ℕ) :
    ∀ s j : ℕ, j < fuel →
      (breakdownGo amount fuel (s + 1) (amount s))[j]? =
        some ⟨s + 1 + j, amount (s + 1 + j), amount (s + 1 + j) - amount (s + j)⟩ := by
  induction fuel with
  | zero => intro s j h; omega
  | succ f ih =>
    intro s j h
    match j with
    | 0 => simp [breakdownGo]
    | j + 1 =>
      have hj : j < f := by omega
      have := ih (s + 1) j hj
      have harith₁ : s + 1 + 1 + j = s + 1 + (j + 1) := by omega
      have harith₂ : s + 1 + j = s + (j + 1) := by omega
      rw [harith₁, harith₂] at this
      simpa [breakdownGo] using this

/-- Telescoping: the interest entries of the breakdown loop sum to the last
amount minus the starting previous amount. -/
theorem breakdownGo_sum (amount : ℕ → ℝ) (fuel : ℕ) :
    ∀ s : ℕ, ((breakdownGo amount fuel (s + 1) (amount s)).map
      (fun r => r.interestEarned)).sum = amount (s + fuel) - amount s := by
  induction fuel with
  | zero => intro s; simp [breakdownGo]
  | succ f ih =>
    intro s
    have := ih (s + 1)
    have harith : s + 1 + f = s + (f + 1) := by omega
    rw [harith] at this
    simp [breakdownGo, this]

/-! ## Claim theorems -/

/-- C1: for every `CalculationParams` of the (discrete-frequency) days-aware
copy, `calculateCompoundInterest` returns
`finalAmount = principal * (1 + (rate/100)/n) ^ (n * timeInYears)` with
`n = getFrequencyValue frequency`, `timeInYears = time / 365` when the unit is
days and `time` otherwise, and `totalInterest = finalAmount - principal`. -/
theorem compound_final_amount_formula (p : CalculationParams) :
    (calculateCompoundInterest p).finalAmount =
      p.principal * (1 + (p.rate / 100) / (getFrequencyValue p.frequency : ℝ)) ^
        ((getFrequencyValue p.frequency : ℝ) * timeInYears p) ∧
    (calculateCompoundInterest p).totalInterest =
      (calculateCompoundInterest p).finalAmount - p.principal ∧
    timeInYears p = (if p.timeUnit = .days then p.time / 365 else p.time) := by
  refine ⟨rfl, rfl, ?_⟩
  cases h : p.timeUnit <;> simp [timeInYears, h]

/-- C2: with `frequency = continuously` the continuous-aware
`calculateCompoundInterest` returns
`finalAmount = principal * e^((rate/100) * time)` (this copy has no
`timeUnit` field, so `timeInYears` is `time` itself and the days/365
conversion of the claim never applies), and at
`principal = 1000, rate = 10, time = 1` the final amount is within `0.01`
of `1105.17`. -/
theorem compound_continuous_formula :
    (∀ p : CalculationParams2, p.frequency = .continuously →
      (calculateCompoundInterest2 p).finalAmount =
        p.principal * Real.exp ((p.rate / 100) * p.time)) ∧
    |(calculateCompoundInterest2 ⟨1000, 10, 1, .continuously⟩).finalAmount - 1105.17| <
      1 / 100 := by
  constructor
  · intro p hp
    simp [calculateCompoundInterest2, hp]
  · have h0 : (calculateCompoundInterest2 ⟨1000, 10, 1, .continuously⟩).finalAmount
        = 1000 * Real.exp (1 / 10) := by
      simp [calculateCompoundInterest2]
      norm_num
    have hb := Real.exp_bound (x := 1 / 10) (by rw [abs_of_nonneg] <;> norm_num)
      (n := 5) (by norm_num)
    have hsum : ∑ m ∈ Finset.range 5, ((1 : ℝ) / 10) ^ m / m.factorial
        = 265241 / 240000 := by
      simp [Finset.sum_range_succ, Nat.factorial]
      norm_num
    rw [hsum] at hb
    have hb2 : |Real.exp (1 / 10) - 265241 / 240000| ≤ 1 / 10000000 := by
      refine le_trans hb ?_
      rw [abs_of_nonneg (by norm_num : (0 : ℝ) ≤ 1 / 10)]
      norm_num [Nat.factorial]
    have h1 := abs_le.mp hb2
    rw [h0, abs_lt]
    constructor <;> linarith [h1.1, h1.2]

/-- Witness for C2 at `principal = 2000, rate = 5, time = 3`. -/
theorem compound_continuous_formula_witness :
    (calculateCompoundInterest2 ⟨2000, 5, 3, .continuously⟩).finalAmount =
      2000 * Real.exp ((5 / 100) * 3) :=
  compound_continuous_formula.1 ⟨2000, 5, 3, .continuously⟩ rfl

/-- Division with a `NaN` divisor is `NaN`, whatever the dividend. -/
theorem jdiv_nan_right (a : JsVal) : jdiv a .nan = .nan := by
  cases a <;> simp [jdiv]

/-- Division of a finite value by `+Infinity` is (a signed) zero. -/
theorem jdiv_fin_inf (x : ℝ) : jdiv (.fin x) .inf = .fin 0 := by
  simp [jdiv]

/-- Division of a finite value by `-Infinity` is (a signed) zero. -/
theorem jdiv_fin_ninf (x : ℝ) : jdiv (.fin x) .ninf = .fin 0 := by
  simp [jdiv]

/-- Ordinary finite division with a nonzero divisor. -/
theorem jdiv_fin_fin (x y : ℝ) (hy : y ≠ 0) : jdiv (.fin x) (.fin y) = .fin (x / y) := by
  simp [jdiv, hy]

/-- Finite addition. -/
theorem jadd_fin_fin (x y : ℝ) : jadd (.fin x) (.fin y) = .fin (x + y) := by
  simp [jadd]

/-- A zero exponent yields `1` for every base, `NaN` and infinities
included. -/
theorem jpow_exp_zero (b : JsVal) : jpow b (.fin 0) = .fin 1 := by
  cases b <;> simp [jpow]

/-- A `NaN` exponent yields `NaN` for every base. -/
theorem jpow_exp_nan (b : JsVal) : jpow b .nan = .nan := by
  cases b <;> simp [jpow]

/-- Base `1` with exponent `+Infinity` is `NaN`. -/
theorem jpow_one_inf : jpow (.fin 1) .inf = .nan := by
  norm_num [jpow]

/-- Base `1` with exponent `-Infinity` is `NaN`. -/
theorem jpow_one_ninf : jpow (.fin 1) .ninf = .nan := by
  norm_num [jpow]

/-- Multiplying `+Infinity` by a positive finite value gives `+Infinity`. -/
theorem jmul_inf_fin_pos (y : ℝ) (hy : 0 < y) : jmul .inf (.fin y) = .inf := by
  simp [jmul, hy]

/-- Multiplying `+Infinity` by a negative finite value gives `-Infinity`. -/
theorem jmul_inf_fin_neg (y : ℝ) (hy : y < 0) : jmul .inf (.fin y) = .ninf := by
  simp [jmul, not_lt_of_lt hy, hy]

/-- Multiplying `+Infinity` by zero gives `NaN`. -/
theorem jmul_inf_fin_zero : jmul .inf (.fin 0) = .nan := by
  simp [jmul]

/-- Multiplying `+Infinity` by `NaN` gives `NaN`. -/
theorem jmul_inf_nan : jmul .inf .nan = .nan := by
  simp [jmul]

/-- Multiplying `NaN` by anything gives `NaN`. -/
theorem jmul_nan_left (b : JsVal) : jmul .nan b = .nan := by
  cases b <;> simp [jmul]

/-- Multiplying anything by `NaN` gives `NaN`. -/
theorem jmul_nan_right (a : JsVal) : jmul a .nan = .nan := by
  cases a <;> simp [jmul]

/-- Subtracting from `NaN` gives `NaN`. -/
theorem jsub_nan_left (b : JsVal) : jsub .nan b = .nan := by
  cases b <;> simp [jsub, jadd, jneg]

/-- Finite subtraction. -/
theorem jsub_fin_fin (x y : ℝ) : jsub (.fin x) (.fin y) = .fin (x - y) := by
  simp [jsub, jadd, jneg, sub_eq_add_neg]

/-- The logarithm of `1` is `0`. -/
theorem jlog_one : jlog (.fin 1) = .fin 0 := by
  norm_num [jlog]

/-- C3 (amended): for the six discrete frequencies the principal-solver
round-trip is exact in the real model (hence within any relative tolerance):
solving for the principal from the computed final amount with the same rate,
time, frequency and time unit returns the original principal.  For
`continuously` the claim fails: see
`missing_principal_round_trip_continuous_cex`. -/
theorem missing_principal_round_trip (principal rate time : ℝ) (f : Frequency)
    (u : TimeUnit) (hp : 0 < principal) (hr : 0 ≤ rate) (ht : 0 ≤ time) :
    calculateMissingPrincipal
      ((calculateCompoundInterest ⟨principal, rate, time, u, f⟩).finalAmount)
      rate time f u = principal := by
  have hn : (0 : ℝ) < (getFrequencyValue f : ℝ) := by
    cases f <;> norm_num [getFrequencyValue]
  have hb : (0 : ℝ) < 1 + (rate / 100) / (getFrequencyValue f : ℝ) := by
    have h1 : (0 : ℝ) ≤ (rate / 100) / (getFrequencyValue f : ℝ) := by positivity
    linarith
  cases u <;>
    simp only [calculateMissingPrincipal, calculateCompoundInterest, timeInYears] <;>
    exact mul_div_cancel_right₀ principal (Real.rpow_pos_of_pos hb _).ne'

/-- Witness for C3 at `principal = 1000, rate = 5, time = 10, annually`. -/
theorem missing_principal_round_trip_witness :
    calculateMissingPrincipal
      ((calculateCompoundInterest ⟨1000, 5, 10, .years, .annually⟩).finalAmount)
      5 10 .annually .years = 1000 :=
  missing_principal_round_trip 1000 5 10 .annually .years (by norm_num) (by norm_num)
    (by norm_num)

/-- Counterexample for C3 as stated: with `frequency = continuously` the
continuous-aware principal solver applied to the computed final amount (at
`principal = 1000, rate = 10, time = 1`) returns `NaN`, not the original
principal: `getFrequencyValue` yields `Infinity`, so the solver evaluates
`finalAmount / Math.pow(1, Infinity) = finalAmount / NaN = NaN`. -/
theorem missing_principal_round_trip_continuous_cex :
    jsCalculateMissingPrincipal2
      (.fin ((calculateCompoundInterest2 ⟨1000, 10, 1, .continuously⟩).finalAmount))
      (.fin 10) (.fin 1) .continuously = .nan := by
  simp only [jsCalculateMissingPrincipal2, jsGetFrequencyValue2]
  rw [jdiv_fin_fin 10 100 (by norm_num), jdiv_fin_inf, jadd_fin_fin]
  norm_num [jmul_inf_fin_pos 1 one_pos, jpow_one_inf, jdiv_nan_right]

/-- C4: the frequency lookup's `default` branch silently returns `1`
(annual compounding) on every key outside the six discrete cases of the
`switch` — including the out-of-set key `"biweekly"` and (in the days-aware
copy and the vanilla clone, whose `switch` has no `continuously` case)
`"continuously"` itself.  No `InvalidFrequency` error value exists anywhere
in the code: the lookup is a total function into the numbers. -/
theorem frequency_lookup_silent_default :
    getFrequencyValueStr "biweekly" = 1 ∧ getFrequencyValueStr "continuously" = 1 ∧
    ∀ s : String,
      s ∉ (["annually", "semi-annually", "quarterly", "monthly", "weekly",
        "daily"] : List String) → getFrequencyValueStr s = 1 := by
  refine ⟨by decide, by decide, ?_⟩
  intro s hs
  simp only [List.mem_cons, List.not_mem_nil, or_false, not_or] at hs
  obtain ⟨h1, h2, h3, h4, h5, h6⟩ := hs
  simp [getFrequencyValueStr, h1, h2, h3, h4, h5, h6]

/-- Witness for C4's universal part at the unknown key `"hourly"`. -/
theorem frequency_lookup_silent_default_witness :
    getFrequencyValueStr "hourly" = 1 :=
  frequency_lookup_silent_default.2.2 "hourly" (by decide)

/-- C5: the inverse rate and time solvers perform no input validation and
silently return non-finite values on `principal ≤ 0` or `finalAmount ≤ 0`
inputs, instead of reporting a `DivisionByZero`/`DomainError`:
`calculateMissingRate(0, 1000, 1, annually)` evaluates
`Math.pow(1000 / 0, 1) = Infinity` and returns `Infinity`, and
`calculateMissingTime(1000, 0, 5, annually)` evaluates
`Math.log(0) = -Infinity` and returns `-Infinity`.  (No error value or
exception path exists in either function: both are total functions into the
numbers.) -/
theorem missing_rate_time_silent_nonfinite :
    jsCalculateMissingRate (.fin 0) (.fin 1000) (.fin 1) .annually .years = .inf ∧
    jsCalculateMissingTime (.fin 1000) (.fin 0) (.fin 5) .annually .years = .ninf := by
  constructor
  · simp only [jsCalculateMissingRate, jsTimeInYears, getFrequencyValue]
    rw [show jdiv (.fin 1000) (.fin 0) = JsVal.inf by norm_num [jdiv]]
    rw [show jmul (.fin ((1 : ℕ) : ℝ)) (.fin 1) = JsVal.fin 1 by
      norm_num [jmul]]
    rw [jdiv_fin_fin 1 1 (by norm_num)]
    rw [show jpow JsVal.inf (.fin (1 / 1)) = JsVal.inf by norm_num [jpow]]
    rw [show jsub JsVal.inf (.fin 1) = JsVal.inf by simp [jsub, jadd, jneg]]
    rw [show jmul JsVal.inf (.fin ((1 : ℕ) : ℝ)) = JsVal.inf by norm_num [jmul]]
    rw [jmul_inf_fin_pos 100 (by norm_num)]
  · simp only [jsCalculateMissingTime, getFrequencyValue]
    rw [jdiv_fin_fin 0 1000 (by norm_num), jdiv_fin_fin 5 100 (by norm_num)]
    rw [show jdiv (.fin (5 / 100)) (.fin ((1 : ℕ) : ℝ)) = JsVal.fin (5 / 100) by
      norm_num [jdiv]]
    rw [jadd_fin_fin]
    rw [show jlog (.fin ((0 : ℝ) / 1000)) = JsVal.ninf by norm_num [jlog]]
    rw [show jlog (.fin (1 + 5 / 100)) = JsVal.fin (Real.log (1 + 5 / 100)) by
      norm_num [jlog]]
    rw [show jmul (.fin ((1 : ℕ) : ℝ)) (.fin (Real.log (1 + 5 / 100)))
        = JsVal.fin (Real.log (1 + 5 / 100)) by norm_num [jmul]]
    have hlog : (0 : ℝ) ≤ Real.log (1 + 5 / 100) :=
      Real.log_nonneg (by norm_num)
    simp [jdiv, hlog]

/-- C6: row counts of the breakdown.  The loop bound `i <= totalPeriods` over
the possibly fractional real count makes the number of rows the floor of the
count, exactly as the claim's trailing-period rule states: a discrete-mode
breakdown has `⌊n * timeInYears⌋₊` rows (both copies), a continuous-mode
breakdown has one row per whole year (`⌊time⌋₊`), a zero time horizon gives
an empty breakdown, and a period of index `i ≥ 1` is present exactly when
`i ≤ n * timeInYears`. -/
theorem breakdown_length_law :
    (∀ p : CalculationParams,
      (calculateCompoundInterest p).yearlyBreakdown.length =
        ⌊(getFrequencyValue p.frequency : ℝ) * timeInYears p⌋₊) ∧
    (∀ p : CalculationParams2, p.frequency = .continuously →
      (calculateCompoundInterest2 p).yearlyBreakdown.length = ⌊p.time⌋₊) ∧
    (∀ p : CalculationParams2, p.frequency ≠ .continuously →
      (calculateCompoundInterest2 p).yearlyBreakdown.length =
        ⌊(freqPeriods p.frequency : ℝ) * p.time⌋₊) ∧
    (∀ p : CalculationParams, timeInYears p = 0 →
      (calculateCompoundInterest p).yearlyBreakdown.length = 0) ∧
    (∀ (p : CalculationParams) (i : ℕ), 1 ≤ i →
      (i ≤ (calculateCompoundInterest p).yearlyBreakdown.length ↔
        (i : ℝ) ≤ (getFrequencyValue p.frequency : ℝ) * timeInYears p)) := by
  have hlen : ∀ p : CalculationParams,
      (calculateCompoundInterest p).yearlyBreakdown.length =
        ⌊(getFrequencyValue p.frequency : ℝ) * timeInYears p⌋₊ := by
    intro p
    simp [calculateCompoundInterest, breakdownGo_length]
  refine ⟨hlen, ?_, ?_, ?_, ?_⟩
  · intro p hp
    simp [calculateCompoundInterest2, hp, breakdownGo_length]
  · intro p hp
    simp [calculateCompoundInterest2, hp, breakdownGo_length]
  · intro p hp
    rw [hlen p, hp, mul_zero]
    simp
  · intro p i hi
    rw [hlen p]
    by_cases h : (0 : ℝ) ≤ (getFrequencyValue p.frequency : ℝ) * timeInYears p
    · exact Nat.le_floor_iff h
    · push_neg at h
      refine iff_of_false (fun hc => ?_) (fun hc => ?_)
      · rw [Nat.floor_of_nonpos h.le] at hc
        omega
      · have hi' : (1 : ℝ) ≤ (i : ℝ) := by exact_mod_cast hi
        linarith

/-- Witness for C6 in continuous mode at `time = 5/2` (two whole years, one
row per year, the trailing half year contributing no row). -/
theorem breakdown_length_law_witness :
    (calculateCompoundInterest2 ⟨1000, 10, 5 / 2, .continuously⟩).yearlyBreakdown.length =
      ⌊(5 / 2 : ℝ)⌋₊ :=
  breakdown_length_law.2.1 ⟨1000, 10, 5 / 2, .continuously⟩ rfl

/-- The per-period amount of the days-aware copy at period `0` is the
principal (the exponent is `n * (0 / n) = 0`). -/
theorem periodAmount1_zero (p : CalculationParams) : periodAmount1 p 0 = p.principal := by
  simp [periodAmount1]

/-- The per-period amount of the continuous-aware copy at period `0` is the
principal. -/
theorem periodAmount2_zero (p : CalculationParams2) : periodAmount2 p 0 = p.principal := by
  by_cases h : p.frequency = .continuously <;> simp [periodAmount2, h]

/-- Row characterization of the breakdown loop started at index `1` with the
principal as the running previous amount, for any amount function whose value
at `0` is the principal. -/
theorem breakdown_rows_of_amount (amount : ℕ → ℝ) (fuel : ℕ) (P : ℝ)
    (hP : amount 0 = P) (j : ℕ) (hj : j < fuel) :
    (breakdownGo amount fuel 1 P)[j]? =
      some ⟨j + 1, amount (j + 1), amount (j + 1) - amount j⟩ := by
  have h := breakdownGo_get amount fuel 0 j hj
  rw [hP] at h
  have h1 : 0 + 1 + j = j + 1 := by omega
  have h2 : 0 + j = j := by omega
  rw [h1, h2] at h
  simpa using h

/-- The years of the breakdown loop rows are `start, start + 1, ...`, hence
strictly increasing. -/
theorem breakdownGo_pairwise (amount : ℕ → ℝ) (fuel : ℕ) (P : ℝ) (hP : amount 0 = P) :
    List.Pairwise (fun a b => a.year < b.year) (breakdownGo amount fuel 1 P) := by
  rw [List.pairwise_iff_getElem]
  intro a b ha hb hab
  have hla : a < fuel := by rwa [breakdownGo_length] at ha
  have hlb : b < fuel := by rwa [breakdownGo_length] at hb
  have hga := breakdown_rows_of_amount amount fuel P hP a hla
  have hgb := breakdown_rows_of_amount amount fuel P hP b hlb
  rw [List.getElem?_eq_getElem ha] at hga
  rw [List.getElem?_eq_getElem hb] at hgb
  have hya : (breakdownGo amount fuel 1 P)[a].year = a + 1 := by
    rw [Option.some_inj.mp hga]
  have hyb : (breakdownGo amount fuel 1 P)[b].year = b + 1 := by
    rw [Option.some_inj.mp hgb]
  rw [hya, hyb]
  omega

/-- C7: for both copies, the breakdown rows carry strictly increasing period
indices `1, 2, ...`, each row's amount is the compound formula evaluated at
elapsed time `i/n` (discrete) or `i` years (continuous) — the per-period
amount functions `periodAmount1`/`periodAmount2` — and each row's interest is
`amount i - amount (i-1)` with `amount 0 = principal`. -/
theorem breakdown_rows_law :
    (∀ p : CalculationParams,
      periodAmount1 p 0 = p.principal ∧
      List.Pairwise (fun a b => a.year < b.year)
        (calculateCompoundInterest p).yearlyBreakdown ∧
      (∀ j : ℕ, j < (calculateCompoundInterest p).yearlyBreakdown.length →
        (calculateCompoundInterest p).yearlyBreakdown[j]? =
          some ⟨j + 1, periodAmount1 p (j + 1),
            periodAmount1 p (j + 1) - periodAmount1 p j⟩)) ∧
    (∀ p : CalculationParams2,
      periodAmount2 p 0 = p.principal ∧
      List.Pairwise (fun a b => a.year < b.year)
        (calculateCompoundInterest2 p).yearlyBreakdown ∧
      (∀ j : ℕ, j < (calculateCompoundInterest2 p).yearlyBreakdown.length →
        (calculateCompoundInterest2 p).yearlyBreakdown[j]? =
          some ⟨j + 1, periodAmount2 p (j + 1),
            periodAmount2 p (j + 1) - periodAmount2 p j⟩)) := by
  constructor
  · intro p
    refine ⟨periodAmount1_zero p, ?_, ?_⟩
    · exact breakdownGo_pairwise (periodAmount1 p) _ _ (periodAmount1_zero p)
    · intro j hj
      rw [show (calculateCompoundInterest p).yearlyBreakdown.length
          = ⌊(getFrequencyValue p.frequency : ℝ) * timeInYears p⌋₊ from
          by simp [calculateCompoundInterest, breakdownGo_length]] at hj
      exact breakdown_rows_of_amount (periodAmount1 p) _ _ (periodAmount1_zero p) j hj
  · intro p
    refine ⟨periodAmount2_zero p, ?_, ?_⟩
    · exact breakdownGo_pairwise (periodAmount2 p) _ _ (periodAmount2_zero p)
    · intro j hj
      rw [show (calculateCompoundInterest2 p).yearlyBreakdown.length
          = ⌊if p.frequency = .continuously then p.time
              else (freqPeriods p.frequency : ℝ) * p.time⌋₊ from
          by simp [calculateCompoundInterest2, breakdownGo_length]] at hj
      exact breakdown_rows_of_amount (periodAmount2 p) _ _ (periodAmount2_zero p) j hj

/-- Witness for C7 at `principal = 500, rate = 50, time = 2, annually`:
the second row (index `1`) of the two-row breakdown. -/
theorem breakdown_rows_law_witness :
    (calculateCompoundInterest ⟨500, 50, 2, .years, .annually⟩).yearlyBreakdown[1]? =
      some ⟨2, periodAmount1 ⟨500, 50, 2, .years, .annually⟩ 2,
        periodAmount1 ⟨500, 50, 2, .years, .annually⟩ 2 -
          periodAmount1 ⟨500, 50, 2, .years, .annually⟩ 1⟩ :=
  (breakdown_rows_law.1 ⟨500, 50, 2, .years, .annually⟩).2.2 1 (by
    simp only [calculateCompoundInterest, breakdownGo_length]
    norm_num [timeInYears, getFrequencyValue])

/-- The periods-per-year value of the days-aware copy is always positive. -/
theorem getFrequencyValue_pos (f : Frequency) : (0 : ℝ) < (getFrequencyValue f : ℝ) := by
  cases f <;> norm_num [getFrequencyValue]

/-- Counterexample for C8 as stated: at
`principal = 1, rate = 100, time = 3/2, annually` the total period count is
the non-integer `3/2`, the loop emits a single row (interest `1`), but
`totalInterest = 2^(3/2) - 1 ≈ 1.83`: the sum of the rows differs from
`totalInterest` by more than `1/2`, far outside floating tolerance. -/
theorem breakdown_sum_fractional_cex :
    (((calculateCompoundInterest ⟨1, 100, 3 / 2, .years, .annually⟩).yearlyBreakdown.map
      (fun r => r.interestEarned)).sum = 1) ∧
    (calculateCompoundInterest ⟨1, 100, 3 / 2, .years, .annually⟩).totalInterest -
      ((calculateCompoundInterest ⟨1, 100, 3 / 2, .years, .annually⟩).yearlyBreakdown.map
        (fun r => r.interestEarned)).sum > 1 / 2 := by
  have hA1 : periodAmount1 ⟨1, 100, 3 / 2, .years, .annually⟩ 1 = 2 := by
    simp only [periodAmount1, getFrequencyValue]
    norm_num
  have hbd : (calculateCompoundInterest ⟨1, 100, 3 / 2, .years, .annually⟩).yearlyBreakdown
      = breakdownGo (periodAmount1 ⟨1, 100, 3 / 2, .years, .annually⟩) 1 1 1 := by
    simp only [calculateCompoundInterest, timeInYears, getFrequencyValue]
    norm_num
    rw [show ⌊(3 / 2 : ℝ)⌋₊ = 1 from by
      rw [Nat.floor_eq_iff (by norm_num)]; norm_num]
  have hsum : ((calculateCompoundInterest
        ⟨1, 100, 3 / 2, .years, .annually⟩).yearlyBreakdown.map
      (fun r => r.interestEarned)).sum = 1 := by
    rw [hbd]
    simp [breakdownGo, hA1]
    norm_num
  refine ⟨hsum, ?_⟩
  have hTI : (calculateCompoundInterest ⟨1, 100, 3 / 2, .years, .annually⟩).totalInterest
      = (2 : ℝ) ^ ((3 : ℝ) / 2) - 1 := by
    simp only [calculateCompoundInterest, timeInYears, getFrequencyValue]
    norm_num
  have hsq : ((2 : ℝ) ^ ((3 : ℝ) / 2)) ^ (2 : ℕ) = 8 := by
    rw [← Real.rpow_natCast ((2 : ℝ) ^ ((3 : ℝ) / 2)) 2,
      ← Real.rpow_mul (by norm_num : (0 : ℝ) ≤ 2)]
    rw [show ((3 : ℝ) / 2 * (2 : ℕ) : ℝ) = ((3 : ℕ) : ℝ) by push_cast; ring]
    rw [Real.rpow_natCast]
    norm_num
  have hpos : (0 : ℝ) < (2 : ℝ) ^ ((3 : ℝ) / 2) :=
    Real.rpow_pos_of_pos (by norm_num) _
  have hgt : (5 : ℝ) / 2 < (2 : ℝ) ^ ((3 : ℝ) / 2) := by nlinarith [hsq, hpos]
  rw [hTI, hsum]
  linarith

/-- C8 (amended): the interest entries of the breakdown always telescope to
`amount(⌊totalPeriods⌋₊) - principal`; this equals `totalInterest` exactly
whenever the total period count `n * timeInYears` is an integer (in
particular for whole-year inputs), but for a fractional period count the
partial final period is omitted from the rows and the sum can differ from
`totalInterest` beyond any tolerance (see `breakdown_sum_fractional_cex`). -/
theorem breakdown_sum_law (p : CalculationParams) :
    ((calculateCompoundInterest p).yearlyBreakdown.map (fun r => r.interestEarned)).sum =
      periodAmount1 p ⌊(getFrequencyValue p.frequency : ℝ) * timeInYears p⌋₊ -
        p.principal ∧
    ∀ k : ℕ, (getFrequencyValue p.frequency : ℝ) * timeInYears p = (k : ℝ) →
      ((calculateCompoundInterest p).yearlyBreakdown.map (fun r => r.interestEarned)).sum =
        (calculateCompoundInterest p).totalInterest := by
  have hsum : ((calculateCompoundInterest p).yearlyBreakdown.map
      (fun r => r.interestEarned)).sum =
      periodAmount1 p ⌊(getFrequencyValue p.frequency : ℝ) * timeInYears p⌋₊ -
        p.principal := by
    have h := breakdownGo_sum (periodAmount1 p)
      ⌊(getFrequencyValue p.frequency : ℝ) * timeInYears p⌋₊ 0
    rw [periodAmount1_zero] at h
    simp only [Nat.zero_add] at h
    exact h
  refine ⟨hsum, ?_⟩
  intro k hk
  rw [hsum]
  have hfloor : ⌊(getFrequencyValue p.frequency : ℝ) * timeInYears p⌋₊ = k := by
    rw [hk, Nat.floor_natCast]
  rw [hfloor]
  have hn : ((getFrequencyValue p.frequency : ℕ) : ℝ) ≠ 0 :=
    (getFrequencyValue_pos p.frequency).ne'
  have hexp : (getFrequencyValue p.frequency : ℝ) *
      ((k : ℝ) / (getFrequencyValue p.frequency : ℝ)) = (k : ℝ) := by
    field_simp
  show periodAmount1 p k - p.principal = (calculateCompoundInterest p).totalInterest
  simp only [periodAmount1, calculateCompoundInterest]
  rw [hexp, hk]

/-- Witness for C8's integer-count part at
`principal = 1000, rate = 5, time = 2, annually` (two whole periods). -/
theorem breakdown_sum_law_witness :
    ((calculateCompoundInterest ⟨1000, 5, 2, .years, .annually⟩).yearlyBreakdown.map
      (fun r => r.interestEarned)).sum =
      (calculateCompoundInterest ⟨1000, 5, 2, .years, .annually⟩).totalInterest :=
  (breakdown_sum_law ⟨1000, 5, 2, .years, .annually⟩).2 2 (by
    norm_num [timeInYears, getFrequencyValue])

/-- The date-stepping loop writes only to cells it freshly allocates: every
cell present before the loop keeps its value. -/
theorem dateLoop_frame (step : ℤ → ℤ) (k : ℕ) :
    ∀ (store : List ℤ) (cur j : ℕ), j < store.length →
      ((dateLoop step k store cur).1).getD j 0 = store.getD j 0 := by
  induction k with
  | zero => intro store cur j hj; rfl
  | succ n ih =>
    intro store cur j hj
    simp only [dateLoop, newDate, readCell, setCell]
    rw [ih _ _ j (by simp; omega)]
    rw [List.getD_eq_getElem?_getD, List.getD_eq_getElem?_getD]
    rw [List.getElem?_set_ne (by omega : store.length ≠ j)]
    rw [List.getElem?_append_left hj]
    exact (List.getD_eq_getElem?_getD store j 0).symm

/-- The whole breakdown date stepping (initial `new Date(startDate)` clone
plus the loop) never writes a pre-existing cell; in particular the
`startDate` cell of `params` is unchanged. -/
theorem runBreakdownDates_frame (step : ℤ → ℤ) (store : List ℤ)
    (startRef count j : ℕ) (hj : j < store.length) :
    ((runBreakdownDates step store startRef count).1).getD j 0 = store.getD j 0 := by
  simp only [runBreakdownDates, newDate, readCell]
  rw [dateLoop_frame step count _ _ j (by simp; omega)]
  rw [List.getD_eq_getElem?_getD, List.getD_eq_getElem?_getD,
    List.getElem?_append_left hj]
  exact (List.getD_eq_getElem?_getD store j 0).symm

/-- C9: `calculateCompoundInterest` is deterministic — equal parameters give
equal results (the model is a pure function of `params`, mirroring that the
source reads its inputs only by destructuring, performs no I/O and uses no
randomness) — and the breakdown's date stepping never mutates the caller's
`startDate`: in the heap model, every `Date` cell that exists before the call
(for any date-advancing `step` function, any start cell and any period count)
holds the same value afterwards, because the loop only ever mutates cells it
freshly allocated via `new Date(...)`. -/
theorem compute_pure_no_mutation :
    (∀ p q : CalculationParams, p = q →
      calculateCompoundInterest p = calculateCompoundInterest q) ∧
    (∀ (step : ℤ → ℤ) (store : List ℤ) (startRef count j : ℕ), j < store.length →
      ((runBreakdownDates step store startRef count).1).getD j 0 = store.getD j 0) :=
  ⟨fun _ _ h => by rw [h],
   fun step store startRef count j hj =>
     runBreakdownDates_frame step store startRef count j hj⟩

/-- Witness for C9: a concrete determinism instance, and a two-cell store
(values `5` and `7`) whose second cell survives three loop iterations of a
thirty-day step started from the first cell. -/
theorem compute_pure_no_mutation_witness :
    calculateCompoundInterest ⟨1000, 5, 10, .years, .monthly⟩ =
      calculateCompoundInterest ⟨1000, 5, 10, .years, .monthly⟩ ∧
    ((runBreakdownDates (fun d => d + 30) [5, 7] 0 3).1).getD 1 0 =
      ([5, 7] : List ℤ).getD 1 0 :=
  ⟨compute_pure_no_mutation.1 _ _ rfl,
   compute_pure_no_mutation.2 (fun d => d + 30) [5, 7] 0 3 1 (by norm_num)⟩

/-- C10: with `frequency = continuously`, every inverse solver of the
continuous-aware copy returns `NaN` on (all) finite inputs:
`getFrequencyValue` yields `n = Infinity`, so the solvers evaluate
`Math.pow(1 + (rate/100)/Infinity, Infinity * time) = Math.pow(1, ±Infinity)
= NaN` (or with a `NaN` exponent when `time = 0`), respectively
`Infinity * (pow - 1)` and `Infinity * Math.log(1) = Infinity * 0 = NaN`; no
continuous closed form (`e^(rt)` or a logarithm) is applied anywhere in these
solvers. -/
theorem continuous_solvers_nan (p fa r t : ℝ) :
    jsCalculateMissingPrincipal2 (.fin fa) (.fin r) (.fin t) .continuously = .nan ∧
    jsCalculateMissingFinalAmount2 (.fin p) (.fin r) (.fin t) .continuously = .nan ∧
    jsCalculateMissingRate2 (.fin p) (.fin fa) (.fin t) .continuously = .nan ∧
    jsCalculateMissingTime2 (.fin p) (.fin fa) (.fin r) .continuously = .nan := by
  have hbase : jadd (.fin 1) (jdiv (jdiv (.fin r) (.fin 100)) .inf) = JsVal.fin 1 := by
    rw [jdiv_fin_fin r 100 (by norm_num), jdiv_fin_inf, jadd_fin_fin, add_zero]
  have hexp_nan : jpow (JsVal.fin 1) (jmul .inf (.fin t)) = JsVal.nan := by
    rcases lt_trichotomy t 0 with h | h | h
    · rw [jmul_inf_fin_neg t h, jpow_one_ninf]
    · rw [h, jmul_inf_fin_zero, jpow_exp_nan]
    · rw [jmul_inf_fin_pos t h, jpow_one_inf]
  refine ⟨?_, ?_, ?_, ?_⟩
  · simp only [jsCalculateMissingPrincipal2, jsGetFrequencyValue2]
    rw [hbase, hexp_nan, jdiv_nan_right]
  · simp only [jsCalculateMissingFinalAmount2, jsGetFrequencyValue2]
    rw [hbase, hexp_nan, jmul_nan_right]
  · simp only [jsCalculateMissingRate2, jsGetFrequencyValue2]
    rcases lt_trichotomy t 0 with h | h | h
    · rw [jmul_inf_fin_neg t h, jdiv_fin_ninf, jpow_exp_zero, jsub_fin_fin]
      norm_num [jmul_inf_fin_zero, jmul_nan_left]
    · rw [h, jmul_inf_fin_zero, jdiv_nan_right, jpow_exp_nan, jsub_nan_left,
        jmul_inf_nan, jmul_nan_left]
    · rw [jmul_inf_fin_pos t h, jdiv_fin_inf, jpow_exp_zero, jsub_fin_fin]
      norm_num [jmul_inf_fin_zero, jmul_nan_left]
  · simp only [jsCalculateMissingTime2, jsGetFrequencyValue2]
    rw [hbase, jlog_one, jmul_inf_fin_zero, jdiv_nan_right]
